import Mathlib

/-!
Verification development for the OCI FOCUS report downloader
(`list_FOCUS_pagination_V0-4.go`).

The Go program is shallowly embedded: pure helpers (`parseDateFromName`,
`formatDateForFilename`, `path.Base`, `strings.Split`, `strconv.Atoi`,
`time.Date`) become Lean functions; the effectful operations
(`HeadObject`, `GetObject`, `os.Create`, `io.Copy`, `os.Stat`) are
represented by explicit per-job outcome records and an explicit
filesystem (the list of existing local paths), threaded through a
sequential run function.  `time.Time` is modelled as nanoseconds since
the Unix epoch in UTC (the program parses dates with `time.UTC` and the
model assumes a UTC clock, so a day shift is a fixed number of
nanoseconds).
-/

namespace FocusReport

/-! ### Go time model: `time.Time` as ns since the Unix epoch (UTC) -/

abbrev GoTime := Int

def nsPerDay : Int := 86400000000000

/-- `y % 4 == 0 && (y % 100 != 0 || y % 400 == 0)` — Go `isLeap`. -/
def isLeap (y : Int) : Bool :=
  y % 4 == 0 && (y % 100 != 0 || y % 400 == 0)

/-- Cumulative days before month `m` (1..12) in a non-leap year —
Go's `daysBefore` table. -/
def daysBefore (m : Int) : Int :=
  if m ≤ 1 then 0
  else if m = 2 then 31
  else if m = 3 then 59
  else if m = 4 then 90
  else if m = 5 then 120
  else if m = 6 then 151
  else if m = 7 then 181
  else if m = 8 then 212
  else if m = 9 then 243
  else if m = 10 then 273
  else if m = 11 then 304
  else 334

/-- Days from the Unix epoch (1970-01-01) to `y`-01-01 in the proleptic
Gregorian calendar: `365*(y-1) + ⌊(y-1)/4⌋ - ⌊(y-1)/100⌋ + ⌊(y-1)/400⌋`
days from year 1, shifted by the 719162 days between year 1 and 1970.
(`/` on `Int` is Euclidean division, floor division for a positive
divisor.) -/
def daysToYearStart (y : Int) : Int :=
  365 * (y - 1) + (y - 1) / 4 - (y - 1) / 100 + (y - 1) / 400 - 719162

/-- The day number of `time.Date(year, month, day, 0,0,0,0, time.UTC)`:
Go normalises the month into `[Jan, Dec]` carrying into the year, then
adds the day-of-year; an out-of-range `day` simply shifts the result. -/
def goDateAbsDays (year month day : Int) : Int :=
  let m0 := month - 1
  let y := year + m0 / 12
  let m := m0 % 12 + 1
  daysToYearStart y + daysBefore m + (if isLeap y && 2 < m then 1 else 0) + (day - 1)

/-- `time.Date(year, month, day, 0,0,0,0, time.UTC)` as a `GoTime`. -/
def goDate (year month day : Int) : GoTime :=
  goDateAbsDays year month day * nsPerDay

/-- The civil day number containing instant `t` (floor). -/
def goTimeDays (t : GoTime) : Int := t / nsPerDay

/-- Month and day-of-month from a 0-based day of a non-leap year —
Go's `absDate` month lookup. -/
def monthDayFromYday (yday : Int) : Int × Int :=
  if yday < 31 then (1, yday + 1)
  else if yday < 59 then (2, yday - 30)
  else if yday < 90 then (3, yday - 58)
  else if yday < 120 then (4, yday - 89)
  else if yday < 151 then (5, yday - 119)
  else if yday < 181 then (6, yday - 150)
  else if yday < 212 then (7, yday - 180)
  else if yday < 243 then (8, yday - 211)
  else if yday < 273 then (9, yday - 242)
  else if yday < 304 then (10, yday - 272)
  else if yday < 334 then (11, yday - 303)
  else (12, yday - 333)

/-- Civil `(year, month, day)` of a day number — Go's `absDate`:
peel 400-, 100-, 4- and 1-year cycles (the 100- and 1-year counts are
capped at 3, Go's `n -= n >> 2`), then adjust the leap day. -/
def civilFromDays (z : Int) : Int × Int × Int :=
  let d0 := z + 719162
  let n400 := d0 / 146097
  let d1 := d0 - 146097 * n400
  let n100 := min (d1 / 36524) 3
  let d2 := d1 - 36524 * n100
  let n4 := d2 / 1461
  let d3 := d2 - 1461 * n4
  let n1 := min (d3 / 365) 3
  let d4 := d3 - 365 * n1
  let y := 1 + 400 * n400 + 100 * n100 + 4 * n4 + n1
  if isLeap y && d4 == 59 then (y, 2, 29)
  else
    let yd := if isLeap y && 59 < d4 then d4 - 1 else d4
    let md := monthDayFromYday yd
    (y, md.1, md.2)

/-- The month/day tail of `civilFromDays`, as a function of the year's
leap flag and the 0-based day of year. -/
def civilYdayToMD (leap : Bool) (doy : Int) : Int × Int :=
  if leap && doy == 59 then (2, 29)
  else
    let yd := if leap && 59 < doy then doy - 1 else doy
    monthDayFromYday yd

/-- Number of days of month `m` of year `y` in the proleptic Gregorian
calendar (the spec-side notion of a valid calendar date, used to state
that `time.Date` encodes valid dates faithfully). -/
def daysInMonth (y m : Int) : Int :=
  if m = 2 then (if isLeap y then 29 else 28)
  else if m = 4 ∨ m = 6 ∨ m = 9 ∨ m = 11 then 30 else 31

/-! ### Decimal rendering (`fmt.Sprintf("%d", _)`, `time.Format` fields) -/

def digitChar (n : Nat) : Char := Char.ofNat (48 + n)

/-- Decimal digits of `n`, accumulator-style with fuel (`fuel > digits`). -/
def digitsAux : Nat → Nat → List Char → List Char
  | 0, _, acc => acc
  | fuel + 1, n, acc =>
    if n < 10 then digitChar n :: acc
    else digitsAux fuel (n / 10) (digitChar (n % 10) :: acc)

def natDigits (n : Nat) : List Char := digitsAux (n + 1) n []

/-- Zero-pad on the left to width `w` — Go's `appendInt` padding. -/
def padZeros (w : Nat) (l : List Char) : List Char :=
  List.replicate (w - l.length) '0' ++ l

/-- Go `appendInt(b, x, w)`: optional minus sign, then `|x|` zero-padded
to width `w`. -/
def intDigits (w : Nat) (x : Int) : List Char :=
  (if x < 0 then ['-'] else []) ++ padZeros w (natDigits x.natAbs)

/-- `fmt.Sprintf("%d", x)`. -/
def goIntToString (x : Int) : String := String.mk (intDigits 0 x)

/-- `t.Format("2006-01-02")` — the ISO rendering used for `ReportDate`
and the summary's `report_date` column. -/
def goFormatISO (t : GoTime) : String :=
  let c := civilFromDays (goTimeDays t)
  String.mk (intDigits 4 c.1 ++ ['-'] ++ intDigits 2 c.2.1 ++ ['-'] ++ intDigits 2 c.2.2)

/-- `formatDateForFilename`: `date.Format("20060102")`. -/
def formatDateForFilename (t : GoTime) : String :=
  let c := civilFromDays (goTimeDays t)
  String.mk (intDigits 4 c.1 ++ intDigits 2 c.2.1 ++ intDigits 2 c.2.2)

/-! ### Go string helpers -/

/-- Core of `strings.Split(s, sep)` for a one-character separator. -/
def splitCharAux (sep : Char) : List Char → List Char → List (List Char)
  | [], acc => [acc.reverse]
  | c :: rest, acc =>
    if c = sep then acc.reverse :: splitCharAux sep rest []
    else splitCharAux sep rest (c :: acc)

/-- `strings.Split(s, String(sep))` for a one-character separator. -/
def goSplit (s : String) (sep : Char) : List String :=
  (splitCharAux sep s.data []).map String.mk

/-- `strings.Contains(s, sub)`. -/
def goContains (s sub : String) : Bool :=
  (List.range (s.data.length + 1)).any fun i => sub.data.isPrefixOf (s.data.drop i)

/-- `path.Base`: last element of the slash-separated path, trailing
slashes removed; `"."` for the empty path, `"/"` for all-slash paths. -/
def pathBase (p : String) : String :=
  if p.data.isEmpty then "."
  else
    let trimmed := p.data.reverse.dropWhile (· == '/')
    if trimmed.isEmpty then "/"
    else String.mk ((trimmed.takeWhile (· != '/')).reverse)

/-- `filepath.Join(folder, name)` on a Unix path.  Path cleaning is
elided: the program joins a user-supplied folder with a slash-free base
name, where `Join` is plain concatenation with a `/` (and `Join("", n)`
is `n`). -/
def filepathJoin (folder name : String) : String :=
  if folder = "" then name else folder ++ "/" ++ name

def isDigitCh (c : Char) : Bool := '0' ≤ c && c ≤ '9'

/-- `strconv.Atoi` (`ParseInt(s, 10, 64)` on a 64-bit `int`): optional
leading sign, one or more decimal digits, error on anything else or on
int64 overflow. -/
def goAtoi (s : String) : Except String Int :=
  let p : Bool × List Char :=
    match s.data with
    | '+' :: r => (false, r)
    | '-' :: r => (true, r)
    | r => (false, r)
  if p.2.isEmpty then Except.error ("invalid syntax: " ++ s)
  else if p.2.all isDigitCh then
    let n : Int := p.2.foldl (fun a c => a * 10 + ((c.toNat : Int) - 48)) 0
    let v : Int := if p.1 then -n else n
    if v < -(2 ^ 63) || 2 ^ 63 - 1 < v then Except.error ("value out of range: " ++ s)
    else Except.ok v
  else Except.error ("invalid syntax: " ++ s)

instance exceptDecEq {ε α : Type} [DecidableEq ε] [DecidableEq α] :
    DecidableEq (Except ε α) := fun x y =>
  match x, y with
  | Except.ok a, Except.ok b =>
    if h : a = b then isTrue (by rw [h])
    else isFalse (fun hc => h (by injection hc))
  | Except.error a, Except.error b =>
    if h : a = b then isTrue (by rw [h])
    else isFalse (fun hc => h (by injection hc))
  | Except.ok _, Except.error _ => isFalse (fun hc => Except.noConfusion hc)
  | Except.error _, Except.ok _ => isFalse (fun hc => Except.noConfusion hc)

/-! ### `parseDateFromName` -/

/-- `parseDateFromName`: split the object name on `/`; fail if fewer
than 4 segments; `Atoi` the 4th-, 3rd- and 2nd-from-last segments as
year, month, day; return `time.Date(year, month, day, 0,0,0,0, UTC)`. -/
def parseDateFromName (name : String) : Except String GoTime :=
  let parts := goSplit name '/'
  if parts.length < 4 then Except.error ("invalid object name format: " ++ name)
  else
    match goAtoi (parts.getD (parts.length - 4) "") with
    | Except.error e => Except.error e
    | Except.ok year =>
      match goAtoi (parts.getD (parts.length - 3) "") with
      | Except.error e => Except.error e
      | Except.ok month =>
        match goAtoi (parts.getD (parts.length - 2) "") with
        | Except.error e => Except.error e
        | Except.ok day => Except.ok (goDate year month day)

/-! ### Data model -/

/-- `objectstorage.ObjectSummary`, restricted to the field the program
reads (`Name *string`). -/
structure ObjectSummary where
  name : Option String
deriving DecidableEq, Repr

/-- `Job`: a file to download. -/
structure Job where
  ObjectName : String
  Namespace  : String
  BucketName : String
deriving DecidableEq, Repr

/-- `OperationResult`: the per-job audit record. -/
structure OperationResult where
  FileName    : String
  FileSize    : Int
  ReportDate  : String
  Status      : String
  Downloaded  : Bool
  Error       : String
  LastAttempt : GoTime
deriving DecidableEq, Repr

/-- Outcomes of the effectful calls `downloadSingleFile` makes for one
job: `getObjectSize` (HeadObject), `GetObject` (fetch-open),
`os.Create`, and `io.Copy` (which on success yields the bytes copied).
The `os.Stat` existence check is answered by the explicit filesystem
instead. -/
structure JobEnv where
  sizeResult   : Except String Int
  getObjectRes : Except String Unit
  createRes    : Except String Unit
  copyRes      : Except String Int
deriving DecidableEq, Repr

/-- What one `downloadSingleFile` call did: the returned
`OperationResult`, the returned `error`, the computed local path, and
instrumentation recording whether `GetObject` was called and whether
`os.Create` succeeded (after which the local file exists, even if the
copy later fails). -/
structure DownloadOutcome where
  result      : OperationResult
  errorRet    : Option String
  path        : String
  fetchCalled : Bool
  fileCreated : Bool
deriving DecidableEq, Repr

/-- The date-prefixed local filename computed inside
`downloadSingleFile`: `datePrefix + path.Base(job.ObjectName)`. -/
def localFilename (objectName : String) : String :=
  match parseDateFromName objectName with
  | Except.ok date => formatDateForFilename date ++ "_" ++ pathBase objectName
  | Except.error _ => "unknown_date_" ++ pathBase objectName

/-- The local path `filepath.Join(folder, prefixedFilename)` a job
writes to. -/
def downloadPath (folder objectName : String) : String :=
  filepathJoin folder (localFilename objectName)

/-- `downloadSingleFile(ctx, client, job, folder)`.  `fs` is the set of
existing local paths (the `os.Stat` oracle), `env` the outcomes of the
network/file calls, `now` the `time.Now()` stamp taken at job start. -/
def downloadSingleFile (env : JobEnv) (fs : List String) (job : Job) (folder : String)
    (now : GoTime) : DownloadOutcome :=
  let base := pathBase job.ObjectName
  let r0 : OperationResult :=
    { FileName := base, FileSize := 0, ReportDate := "", Status := "",
      Downloaded := false, Error := "", LastAttempt := now }
  let r1 :=
    match env.sizeResult with
    | Except.error _ => { r0 with FileSize := 0 }
    | Except.ok size => { r0 with FileSize := size }
  let dp :=
    match parseDateFromName job.ObjectName with
    | Except.ok date =>
      (formatDateForFilename date ++ "_", { r1 with ReportDate := goFormatISO date })
    | Except.error _ => ("unknown_date_", { r1 with ReportDate := "unknown" })
  let prefixedFilename := dp.1 ++ base
  let filePath := filepathJoin folder prefixedFilename
  let r2 := { dp.2 with FileName := prefixedFilename }
  if filePath ∈ fs then
    { result := { r2 with Status := "Already exists", Downloaded := false },
      errorRet := none, path := filePath, fetchCalled := false, fileCreated := false }
  else
    match env.getObjectRes with
    | Except.error e =>
      { result := { r2 with Status := "Failed", Error := e },
        errorRet := some e, path := filePath, fetchCalled := true, fileCreated := false }
    | Except.ok _ =>
      match env.createRes with
      | Except.error e =>
        { result := { r2 with Status := "Failed", Error := e },
          errorRet := some e, path := filePath, fetchCalled := true, fileCreated := false }
      | Except.ok _ =>
        match env.copyRes with
        | Except.error e =>
          { result := { r2 with Status := "Failed", Error := e },
            errorRet := some e, path := filePath, fetchCalled := true, fileCreated := true }
        | Except.ok bytesCopied =>
          { result :=
              { r2 with FileSize := bytesCopied, Status := "Success", Downloaded := true },
            errorRet := none, path := filePath, fetchCalled := true, fileCreated := true }

/-- One entry of the worker pool's result stream
(`Result{Job, Result, Error}`), with the outcome instrumentation. -/
structure RunStep where
  job     : Job
  outcome : DownloadOutcome
deriving DecidableEq, Repr

/-- The worker loop `for job := range wp.jobs { ... wp.results <- ... }`:
process the queued jobs in order, threading the filesystem (a successful
`os.Create` makes the path exist for later jobs and runs). -/
def runJobs (folder : String) (now : GoTime) :
    List (Job × JobEnv) → List String → List RunStep × List String
  | [], fs => ([], fs)
  | (job, env) :: rest, fs =>
    let o := downloadSingleFile env fs job folder now
    let fs1 := if o.fileCreated then o.path :: fs else fs
    let r := runJobs folder now rest fs1
    (⟨job, o⟩ :: r.1, r.2)

/-! ### `listAllFocusReports` -/

/-- The per-object test of the listing loop: skip `nil` names, require
the `FOCUS`/`FOCUS_REPORT` marker, skip objects whose date does not
parse, keep those with `objDate.After(cutoff)` where
`cutoff = now.AddDate(0, 0, -days)`. -/
def keepObject (now : GoTime) (days : Int) (obj : ObjectSummary) : Bool :=
  match obj.name with
  | none => false
  | some name =>
    (goContains name "FOCUS" || goContains name "FOCUS_REPORT") &&
      (match parseDateFromName name with
       | Except.error _ => false
       | Except.ok objDate => now - days * nsPerDay < objDate)

/-- `listAllFocusReports`: page through the listing (each page appended
in order), keeping the objects that pass `keepObject`. -/
def listAllFocusReports (pages : List (List ObjectSummary)) (now : GoTime) (days : Int) :
    List ObjectSummary :=
  pages.foldl (fun allObjects page => allObjects ++ page.filter (keepObject now days)) []

/-! ### Summary report (`main`, lines 430-483) -/

/-- `Report{Name, Size, Date}` of the summary-building loop. -/
structure Report where
  Name : String
  Size : Int
  Date : GoTime
deriving DecidableEq, Repr

/-- One iteration of the summary loop: skip `nil` names, substitute
size 0 when `getObjectSize` fails, skip objects whose date does not
parse. -/
def reportOf (sizeOf : String → Except String Int) (obj : ObjectSummary) : Option Report :=
  match obj.name with
  | none => none
  | some name =>
    let size :=
      match sizeOf name with
      | Except.error _ => 0
      | Except.ok s => s
    match parseDateFromName name with
    | Except.error _ => none
    | Except.ok date => some { Name := name, Size := size, Date := date }

/-- The summary loop over the listed objects. -/
def buildReports (objects : List ObjectSummary) (sizeOf : String → Except String Int) :
    List Report :=
  objects.filterMap (reportOf sizeOf)

/-- The ordering of `sort.Slice(reports, func(i, j) { return
reports[i].Date.After(reports[j].Date) })`: descending by date.
`sort.Slice` is modelled by insertion sort with the same ordering (the
claims constrain only sortedness and the multiset of rows, which any
correct sort by this ordering satisfies). -/
def dateDesc (a b : Report) : Prop := b.Date ≤ a.Date

instance : DecidableRel dateDesc := fun a b => Int.decLe b.Date a.Date

instance : IsTotal Report dateDesc := ⟨fun a b => le_total b.Date a.Date⟩

instance : IsTrans Report dateDesc := ⟨fun _ _ _ h1 h2 => le_trans h2 h1⟩

/-- The summary list after `sort.Slice`. -/
def sortedReports (objects : List ObjectSummary) (sizeOf : String → Except String Int) :
    List Report :=
  List.insertionSort dateDesc (buildReports objects sizeOf)

/-- One CSV row of `oci_focus_reports.csv`. -/
structure SummaryRow where
  bucket_name  : String
  object_name  : String
  size_bytes   : String
  report_date  : String
  tenancy_ocid : String
deriving DecidableEq, Repr

/-- The row written for one report: `{bucketName, path.Base(r.Name),
Sprintf("%d", r.Size), r.Date.Format("2006-01-02"), bucketName}`. -/
def summaryRow (bucketName : String) (r : Report) : SummaryRow :=
  { bucket_name := bucketName, object_name := pathBase r.Name,
    size_bytes := goIntToString r.Size, report_date := goFormatISO r.Date,
    tenancy_ocid := bucketName }

def summaryRows (bucketName : String) (rs : List Report) : List SummaryRow :=
  rs.map (summaryRow bucketName)

/-- `main` sets `bucketName := tenancyID` (the tenancy OCID read from
the configuration provider). -/
def mainBucketName (tenancyID : String) : String := tenancyID

/-- The two objects of the spec's concrete listing scenario. -/
def scenarioO1 : ObjectSummary := ⟨some "a/b/2025/09/25/FOCUS_REPORT1.csv"⟩

def scenarioO2 : ObjectSummary := ⟨some "a/b/2025/09/20/FOCUS_REPORT2.csv"⟩

/-- Concrete job/environment used by the witnesses. -/
def wJob : Job :=
  { ObjectName := "a/b/2025/09/25/FOCUS_REPORT1.csv", Namespace := "bling",
    BucketName := "tenancy" }

def wEnvOK : JobEnv :=
  { sizeResult := Except.ok 12345, getObjectRes := Except.ok (),
    createRes := Except.ok (), copyRes := Except.ok 12345 }

def wEnvFail : JobEnv :=
  { sizeResult := Except.error "head failed", getObjectRes := Except.error "404",
    createRes := Except.error "permission denied", copyRes := Except.error "EOF" }

/-- The report of the C10 witness row. -/
def wReport : Report :=
  { Name := "a/b/2025/09/25/FOCUS_REPORT1.csv", Size := 12345, Date := goDate 2025 9 25 }

/-! ### Helper lemmas: `downloadSingleFile` -/

theorem downloadSingleFile_path (env : JobEnv) (fs : List String) (job : Job)
    (folder : String) (now : GoTime) :
    (downloadSingleFile env fs job folder now).path = downloadPath folder job.ObjectName := by
  unfold downloadSingleFile downloadPath localFilename
  cases hp : parseDateFromName job.ObjectName <;>
    simp only [hp] <;> (try dsimp only) <;> split <;>
    first
      | rfl
      | (cases hg : env.getObjectRes <;> (try dsimp only) <;>
          first
            | rfl
            | (cases hc : env.createRes <;> (try dsimp only) <;>
                first
                  | rfl
                  | (cases hcp : env.copyRes <;> rfl)))

theorem downloadSingleFile_fileName (env : JobEnv) (fs : List String) (job : Job)
    (folder : String) (now : GoTime) :
    (downloadSingleFile env fs job folder now).result.FileName =
      localFilename job.ObjectName := by
  unfold downloadSingleFile localFilename
  cases hp : parseDateFromName job.ObjectName <;>
    simp only [hp] <;> (try dsimp only) <;> split <;>
    first
      | rfl
      | (cases hg : env.getObjectRes <;> (try dsimp only) <;>
          first
            | rfl
            | (cases hc : env.createRes <;> (try dsimp only) <;>
                first
                  | rfl
                  | (cases hcp : env.copyRes <;> rfl)))

theorem downloadSingleFile_status_cases (env : JobEnv) (fs : List String) (job : Job)
    (folder : String) (now : GoTime) :
    (downloadSingleFile env fs job folder now).result.Status = "Already exists" ∨
    (downloadSingleFile env fs job folder now).result.Status = "Failed" ∨
    (downloadSingleFile env fs job folder now).result.Status = "Success" := by
  unfold downloadSingleFile
  cases hp : parseDateFromName job.ObjectName <;>
    simp only [hp] <;> (try dsimp only) <;> split <;>
    first
      | simp
      | (cases hg : env.getObjectRes <;> (try dsimp only) <;>
          first
            | simp
            | (cases hc : env.createRes <;> (try dsimp only) <;>
                first
                  | simp
                  | (cases hcp : env.copyRes <;> simp)))

/-- The skip check: when the computed local path already exists, the job
short-circuits (`Already exists`, not downloaded, no fetch, no file
creation). -/
theorem downloadSingleFile_skip (env : JobEnv) (fs : List String) (job : Job)
    (folder : String) (now : GoTime)
    (h : downloadPath folder job.ObjectName ∈ fs) :
    (downloadSingleFile env fs job folder now).result.Status = "Already exists" ∧
    (downloadSingleFile env fs job folder now).result.Downloaded = false ∧
    (downloadSingleFile env fs job folder now).fetchCalled = false ∧
    (downloadSingleFile env fs job folder now).fileCreated = false := by
  unfold downloadSingleFile
  unfold downloadPath localFilename at h
  cases hp : parseDateFromName job.ObjectName <;>
    rw [hp] at h <;> simp only [hp] <;> (try dsimp only) <;> rw [if_pos h] <;> exact ⟨rfl, rfl, rfl, rfl⟩

/-- A job that did not fail leaves its computed path on disk: either it
was already there (skip) or `os.Create` succeeded. -/
theorem downloadSingleFile_notFailed_mem (env : JobEnv) (fs : List String) (job : Job)
    (folder : String) (now : GoTime)
    (h : (downloadSingleFile env fs job folder now).result.Status ≠ "Failed") :
    (downloadSingleFile env fs job folder now).path ∈
      (if (downloadSingleFile env fs job folder now).fileCreated then
        (downloadSingleFile env fs job folder now).path :: fs
      else fs) := by
  revert h
  unfold downloadSingleFile
  cases hp : parseDateFromName job.ObjectName <;> simp only [hp] <;> (try dsimp only) <;> split
  case _ hmem => intro _; simpa using hmem
  case _ hmem =>
    cases hg : env.getObjectRes <;> (try dsimp only)
    · intro hcon; exact absurd rfl hcon
    · cases hc : env.createRes <;> (try dsimp only)
      · intro hcon; exact absurd rfl hcon
      · cases hcp : env.copyRes <;> (try dsimp only) <;> intro h2
        · exact absurd rfl h2
        · simp
  case _ hmem => intro _; simpa using hmem
  case _ hmem =>
    cases hg : env.getObjectRes <;> (try dsimp only)
    · intro hcon; exact absurd rfl hcon
    · cases hc : env.createRes <;> (try dsimp only)
      · intro hcon; exact absurd rfl hcon
      · cases hcp : env.copyRes <;> (try dsimp only) <;> intro h2
        · exact absurd rfl h2
        · simp

/-! ### Helper lemmas: `runJobs` -/

theorem runJobs_map_job (folder : String) (now : GoTime) :
    ∀ (jobs : List (Job × JobEnv)) (fs : List String),
      (runJobs folder now jobs fs).1.map RunStep.job = jobs.map Prod.fst
  | [], _ => rfl
  | (job, env) :: rest, fs => by
    simp only [runJobs, List.map_cons]
    exact congrArg _ (runJobs_map_job folder now rest _)

theorem runJobs_fs_mono (folder : String) (now : GoTime) :
    ∀ (jobs : List (Job × JobEnv)) (fs : List String) (p : String),
      p ∈ fs → p ∈ (runJobs folder now jobs fs).2
  | [], _, _, h => h
  | (job, env) :: rest, fs, p, h => by
    simp only [runJobs]
    refine runJobs_fs_mono folder now rest _ p ?_
    split
    · exact List.mem_cons_of_mem _ h
    · exact h

/-- If no step of a run failed, then after the run the computed path of
every job of the run is on disk. -/
theorem runJobs_notFailed_paths (folder : String) (now : GoTime) :
    ∀ (jobs : List (Job × JobEnv)) (fs : List String),
      (∀ step ∈ (runJobs folder now jobs fs).1, step.outcome.result.Status ≠ "Failed") →
      ∀ je ∈ jobs, downloadPath folder je.1.ObjectName ∈ (runJobs folder now jobs fs).2
  | [], _, _, _, h => absurd h (List.not_mem_nil _)
  | (job, env) :: rest, fs, hok, je, hje => by
    have hokHead : (downloadSingleFile env fs job folder now).result.Status ≠ "Failed" := by
      refine hok ⟨job, downloadSingleFile env fs job folder now⟩ ?_
      simp [runJobs]
    have hmem : (downloadSingleFile env fs job folder now).path ∈
        (if (downloadSingleFile env fs job folder now).fileCreated then
          (downloadSingleFile env fs job folder now).path :: fs
        else fs) :=
      downloadSingleFile_notFailed_mem env fs job folder now hokHead
    rcases List.mem_cons.mp hje with h | h
    · subst h
      simp only [runJobs]
      refine runJobs_fs_mono folder now rest _ _ ?_
      simpa only [downloadSingleFile_path] using hmem
    · simp only [runJobs]
      refine runJobs_notFailed_paths folder now rest _ ?_ je h
      intro step hstep
      refine hok step ?_
      simp only [runJobs, List.mem_cons]
      exact Or.inr hstep

/-- If every job's computed path is already on disk, every step of the
run short-circuits with `Already exists` and performs no fetch. -/
theorem runJobs_all_exist (folder : String) (now : GoTime) :
    ∀ (jobs : List (Job × JobEnv)) (fs : List String),
      (∀ je ∈ jobs, downloadPath folder je.1.ObjectName ∈ fs) →
      ∀ step ∈ (runJobs folder now jobs fs).1,
        step.outcome.result.Status = "Already exists" ∧
        step.outcome.result.Downloaded = false ∧
        step.outcome.fetchCalled = false
  | [], _, _, _, h => absurd h (List.not_mem_nil _)
  | (job, env) :: rest, fs, hall, step, hstep => by
    have hskip := downloadSingleFile_skip env fs job folder now
      (hall (job, env) (List.mem_cons_self _ _))
    simp only [runJobs, List.mem_cons] at hstep
    rcases hstep with h | h
    · subst h
      exact ⟨hskip.1, hskip.2.1, hskip.2.2.1⟩
    · have hfs1 : (if (downloadSingleFile env fs job folder now).fileCreated then
          (downloadSingleFile env fs job folder now).path :: fs else fs) = fs := by
        rw [hskip.2.2.2]
        simp
      rw [hfs1] at h
      refine runJobs_all_exist folder now rest fs ?_ step h
      intro je hje
      exact hall je (List.mem_cons_of_mem _ hje)

/-! ### Helper lemmas: `listAllFocusReports` -/

theorem foldl_filter_acc (k : ObjectSummary → Bool) :
    ∀ (pages : List (List ObjectSummary)) (acc : List ObjectSummary),
      pages.foldl (fun a page => a ++ page.filter k) acc = acc ++ (pages.flatten).filter k
  | [], acc => by simp
  | page :: rest, acc => by
    simp only [List.foldl_cons, List.flatten_cons, List.filter_append]
    rw [foldl_filter_acc k rest]
    simp [List.append_assoc]

theorem listAllFocusReports_eq_filter (pages : List (List ObjectSummary)) (now : GoTime)
    (days : Int) :
    listAllFocusReports pages now days = (pages.flatten).filter (keepObject now days) := by
  unfold listAllFocusReports
  simpa using foldl_filter_acc (keepObject now days) pages []

theorem keepObject_iff (now : GoTime) (days : Int) (obj : ObjectSummary) :
    keepObject now days obj = true ↔
      ∃ nm, obj.name = some nm ∧
        (goContains nm "FOCUS" || goContains nm "FOCUS_REPORT") = true ∧
        ∃ d, parseDateFromName nm = Except.ok d ∧ now - days * nsPerDay < d := by
  unfold keepObject
  rcases obj with ⟨name⟩
  cases name with
  | none => simp
  | some nm =>
    simp only [Option.some.injEq]
    constructor
    · intro h
      rcases (Bool.and_eq_true _ _).mp h with ⟨hmark, hdate⟩
      refine ⟨nm, rfl, hmark, ?_⟩
      revert hdate
      cases hp : parseDateFromName nm with
      | error e => intro h2; cases h2
      | ok d => intro h2; exact ⟨d, rfl, by simpa using h2⟩
    · rintro ⟨nm2, hnm, hmark, d, hp, hd⟩
      cases hnm
      rw [Bool.and_eq_true]
      refine ⟨hmark, ?_⟩
      rw [hp]
      simpa using hd

theorem mem_listAllFocusReports (pages : List (List ObjectSummary)) (now : GoTime)
    (days : Int) (obj : ObjectSummary) :
    obj ∈ listAllFocusReports pages now days ↔
      obj ∈ pages.flatten ∧ keepObject now days obj = true := by
  rw [listAllFocusReports_eq_filter]
  exact List.mem_filter

/-! ### Helper lemmas: `parseDateFromName` and formatting -/

theorem parseDateFromName_ok_of (name : String) (y m d : Int)
    (h4 : ¬ (goSplit name '/').length < 4)
    (hy : goAtoi ((goSplit name '/').getD ((goSplit name '/').length - 4) "") = Except.ok y)
    (hm : goAtoi ((goSplit name '/').getD ((goSplit name '/').length - 3) "") = Except.ok m)
    (hd : goAtoi ((goSplit name '/').getD ((goSplit name '/').length - 2) "") = Except.ok d) :
    parseDateFromName name = Except.ok (goDate y m d) := by
  unfold parseDateFromName
  rw [if_neg h4]
  simp only [hy, hm, hd]

theorem parseDateFromName_short (name : String)
    (h4 : (goSplit name '/').length < 4) :
    parseDateFromName name = Except.error ("invalid object name format: " ++ name) := by
  unfold parseDateFromName
  rw [if_pos h4]

theorem parseDateFromName_badYear (name : String) (e : String)
    (h4 : ¬ (goSplit name '/').length < 4)
    (hy : goAtoi ((goSplit name '/').getD ((goSplit name '/').length - 4) "") =
      Except.error e) :
    parseDateFromName name = Except.error e := by
  unfold parseDateFromName
  rw [if_neg h4]
  simp only [hy]

theorem parseDateFromName_badMonth (name : String) (y : Int) (e : String)
    (h4 : ¬ (goSplit name '/').length < 4)
    (hy : goAtoi ((goSplit name '/').getD ((goSplit name '/').length - 4) "") = Except.ok y)
    (hm : goAtoi ((goSplit name '/').getD ((goSplit name '/').length - 3) "") =
      Except.error e) :
    parseDateFromName name = Except.error e := by
  unfold parseDateFromName
  rw [if_neg h4]
  simp only [hy, hm]

theorem parseDateFromName_badDay (name : String) (y m : Int) (e : String)
    (h4 : ¬ (goSplit name '/').length < 4)
    (hy : goAtoi ((goSplit name '/').getD ((goSplit name '/').length - 4) "") = Except.ok y)
    (hm : goAtoi ((goSplit name '/').getD ((goSplit name '/').length - 3) "") = Except.ok m)
    (hd : goAtoi ((goSplit name '/').getD ((goSplit name '/').length - 2) "") =
      Except.error e) :
    parseDateFromName name = Except.error e := by
  unfold parseDateFromName
  rw [if_neg h4]
  simp only [hy, hm, hd]

theorem isLeap_iff (y : Int) :
    isLeap y = true ↔ (y % 4 = 0 ∧ (y % 100 ≠ 0 ∨ y % 400 = 0)) := by
  unfold isLeap
  simp [Bool.and_eq_true, Bool.or_eq_true, beq_iff_eq, bne_iff_ne]

/-- Peeling the 400/100/4/1-year cycles: on a day number presented in
cycle-decomposed form, `civilFromDays` recovers the year and hands the
day-of-year to the month/day lookup. -/
theorem civilFromDays_decomp (q c qq t doy : Int)
    (hc : 0 ≤ c ∧ c ≤ 3) (hqq : 0 ≤ qq ∧ qq ≤ 24) (ht : 0 ≤ t ∧ t ≤ 3)
    (hdoy : 0 ≤ doy ∧ doy ≤ 365)
    (h365 : doy ≠ 365 ∨ t = 3)
    (hcap : qq ≠ 24 ∨ t ≠ 3 ∨ doy ≠ 365 ∨ c = 3) :
    civilFromDays (146097*q + 36524*c + 1461*qq + 365*t + doy - 719162) =
      (400*q + 100*c + 4*qq + t + 1,
        (civilYdayToMD (isLeap (400*q + 100*c + 4*qq + t + 1)) doy).1,
        (civilYdayToMD (isLeap (400*q + 100*c + 4*qq + t + 1)) doy).2) := by
  unfold civilFromDays
  lift_lets
  extract_lets d0 n400 d1 n100 d2 n4 d3 n1 d4 yy
  have hd0 : d0 = 146097*q + 36524*c + 1461*qq + 365*t + doy - 719162 + 719162 := rfl
  have hn400 : n400 = d0 / 146097 := rfl
  have hd1e : d1 = d0 - 146097 * n400 := rfl
  have hn100 : n100 = min (d1 / 36524) 3 := rfl
  have hd2e : d2 = d1 - 36524 * n100 := rfl
  have hn4e : n4 = d2 / 1461 := rfl
  have hd3e : d3 = d2 - 1461 * n4 := rfl
  have hn1e : n1 = min (d3 / 365) 3 := rfl
  have hd4e : d4 = d3 - 365 * n1 := rfl
  have hyye : yy = 1 + 400 * n400 + 100 * n100 + 4 * n4 + n1 := rfl
  clear_value d0 n400 d1 n100 d2 n4 d3 n1 d4 yy
  have hn400v : n400 = q := by omega
  have hn100v : n100 = c := by omega
  have hn4v : n4 = qq := by omega
  have hn1v : n1 = t := by omega
  have hd4v : d4 = doy := by omega
  have hyyv : yy = 400*q + 100*c + 4*qq + t + 1 := by omega
  rw [hyyv, hd4v]
  unfold civilYdayToMD
  split_ifs <;> rfl

/-- The month/day lookup undoes the day-of-year computation for every
valid day `d` of month `m`. -/
theorem civilYdayToMD_recover (leap : Bool) (m d : Int)
    (hm : 1 ≤ m ∧ m ≤ 12) (hd1 : 1 ≤ d)
    (hd2 : d ≤ if m = 2 then (if leap = true then 29 else 28)
        else if m = 4 ∨ m = 6 ∨ m = 9 ∨ m = 11 then 30 else 31) :
    civilYdayToMD leap (daysBefore m + (if leap && decide (2 < m) then 1 else 0) + (d - 1)) =
      (m, d) := by
  have hm12 : m = 1 ∨ m = 2 ∨ m = 3 ∨ m = 4 ∨ m = 5 ∨ m = 6 ∨ m = 7 ∨ m = 8 ∨
      m = 9 ∨ m = 10 ∨ m = 11 ∨ m = 12 := by omega
  cases leap <;>
    rcases hm12 with rfl | rfl | rfl | rfl | rfl | rfl | rfl | rfl | rfl | rfl | rfl | rfl <;>
    norm_num at hd2 <;>
    norm_num [civilYdayToMD, daysBefore, Bool.false_and, Bool.true_and,
      beq_iff_eq, decide_eq_true_eq, Bool.false_eq_true, if_false] <;>
    rcases eq_or_ne d 29 with rfl | hne <;>
    (repeat (first | rw [if_pos (by omega)] | rw [if_neg (by omega)])) <;>
    rw [monthDayFromYday] <;>
    (repeat (first | rw [if_pos (by omega)] | rw [if_neg (by omega)])) <;>
    rw [Prod.mk.injEq] <;>
    exact ⟨by omega, by omega⟩

/-- For a valid proleptic-Gregorian calendar date `(y, m, d)`, the civil
decomposition of the `time.Date` day number recovers exactly `y`, `m`
and `d`: the date constructor and the date formatter are mutually
inverse on valid dates. -/
theorem civilFromDays_goDateAbsDays (y m d : Int) (hm1 : 1 ≤ m) (hm2 : m ≤ 12)
    (hd1 : 1 ≤ d) (hd2 : d ≤ daysInMonth y m) :
    civilFromDays (goDateAbsDays y m d) = (y, m, d) := by
  obtain ⟨q, r, hqr, hr0, hr1⟩ : ∃ q r, y - 1 = 400*q + r ∧ 0 ≤ r ∧ r < 400 :=
    ⟨(y - 1) / 400, (y - 1) % 400, by omega, by omega, by omega⟩
  obtain ⟨c, s, hcs, hs0, hs1⟩ : ∃ c s, r = 100*c + s ∧ 0 ≤ s ∧ s < 100 :=
    ⟨r / 100, r % 100, by omega, by omega, by omega⟩
  obtain ⟨qq, t, hqt, ht0, ht1⟩ : ∃ qq t, s = 4*qq + t ∧ 0 ≤ t ∧ t < 4 :=
    ⟨s / 4, s % 4, by omega, by omega, by omega⟩
  have hc3 : 0 ≤ c ∧ c ≤ 3 := by omega
  have hqq24 : 0 ≤ qq ∧ qq ≤ 24 := by omega
  have e4 : (y - 1) / 4 = 100*q + 25*c + qq := by omega
  have e100 : (y - 1) / 100 = 4*q + c := by omega
  have e400 : (y - 1) / 400 = q := by omega
  have hLiff : isLeap y = true ↔ (t = 3 ∧ (qq ≠ 24 ∨ c = 3)) := by
    rw [isLeap_iff]
    omega
  have h12a : (m - 1) / 12 = 0 := by omega
  have h12b : (m - 1) % 12 = m - 1 := by omega
  have h12c : m - 1 + 1 = m := by omega
  have hA : goDateAbsDays y m d = 146097*q + 36524*c + 1461*qq + 365*t +
      (daysBefore m + (if isLeap y && 2 < m then 1 else 0) + (d - 1)) - 719162 := by
    rw [goDateAbsDays]
    simp only [h12a, h12b, add_zero, h12c]
    rw [daysToYearStart, e4, e100, e400]
    omega
  have hm12 : m = 1 ∨ m = 2 ∨ m = 3 ∨ m = 4 ∨ m = 5 ∨ m = 6 ∨ m = 7 ∨ m = 8 ∨
      m = 9 ∨ m = 10 ∨ m = 11 ∨ m = 12 := by omega
  rw [daysInMonth] at hd2
  by_cases hL : isLeap y = true
  case pos =>
    obtain ⟨ht3, hqc⟩ := hLiff.mp hL
    have hdub : daysBefore m + (if isLeap y && 2 < m then 1 else 0) + (d - 1) ≤ 365 ∧
        0 ≤ daysBefore m + (if isLeap y && 2 < m then 1 else 0) + (d - 1) := by
      rw [hL] at hd2 ⊢
      simp only [Bool.true_and] at hd2 ⊢
      rcases hm12 with rfl | rfl | rfl | rfl | rfl | rfl | rfl | rfl | rfl | rfl | rfl | rfl <;>
        norm_num at hd2 ⊢ <;> norm_num [daysBefore] <;> omega
    rw [hA, civilFromDays_decomp q c qq t _ hc3 hqq24 ⟨ht0, by omega⟩
      ⟨hdub.2, hdub.1⟩ (Or.inr ht3) (by tauto)]
    have hyv : 400*q + 100*c + 4*qq + t + 1 = y := by omega
    rw [hyv]
    have hrec := civilYdayToMD_recover (isLeap y) m d ⟨hm1, hm2⟩ hd1 hd2
    rw [hrec]
  case neg =>
    have hLf : isLeap y = false := by
      revert hL
      cases isLeap y <;> simp
    have hdub : daysBefore m + (if isLeap y && 2 < m then 1 else 0) + (d - 1) ≤ 364 ∧
        0 ≤ daysBefore m + (if isLeap y && 2 < m then 1 else 0) + (d - 1) := by
      rw [hLf] at hd2 ⊢
      simp only [Bool.false_and, Bool.false_eq_true, if_false] at hd2 ⊢
      rcases hm12 with rfl | rfl | rfl | rfl | rfl | rfl | rfl | rfl | rfl | rfl | rfl | rfl <;>
        norm_num at hd2 ⊢ <;> norm_num [daysBefore] <;> omega
    rw [hA, civilFromDays_decomp q c qq t _ hc3 hqq24 ⟨ht0, by omega⟩
      ⟨hdub.2, by omega⟩ (Or.inl (by omega)) (Or.inr (Or.inr (Or.inl (by omega))))]
    have hyv : 400*q + 100*c + 4*qq + t + 1 = y := by omega
    rw [hyv]
    have hrec := civilYdayToMD_recover (isLeap y) m d ⟨hm1, hm2⟩ hd1 hd2
    rw [hrec]

/-- `goTimeDays` inverts the day-to-nanosecond scaling of `goDate`. -/
theorem goTimeDays_goDate (y m d : Int) :
    goTimeDays (goDate y m d) = goDateAbsDays y m d := by
  rw [goTimeDays, goDate, nsPerDay]
  omega

theorem digitsAux_length : ∀ (fuel n : Nat) (acc : List Char),
    acc.length ≤ (digitsAux fuel n acc).length
  | 0, _, _ => Nat.le_refl _
  | fuel + 1, n, acc => by
    unfold digitsAux
    split
    · exact Nat.le_succ _
    · calc acc.length ≤ (digitChar (n % 10) :: acc).length := by
            rw [List.length_cons]; omega
        _ ≤ _ := digitsAux_length fuel (n / 10) _

theorem padZeros_length (w : Nat) (l : List Char) : w ≤ (padZeros w l).length := by
  unfold padZeros
  rw [List.length_append, List.length_replicate]
  omega

theorem intDigits_length (w : Nat) (x : Int) : w ≤ (intDigits w x).length := by
  unfold intDigits
  have h := padZeros_length w (natDigits x.natAbs)
  split <;> rw [List.length_append] <;> omega

theorem goFormatISO_length (t : GoTime) : 10 ≤ (goFormatISO t).length := by
  have h1 := intDigits_length 4 (civilFromDays (goTimeDays t)).1
  have h2 := intDigits_length 2 (civilFromDays (goTimeDays t)).2.1
  have h3 := intDigits_length 2 (civilFromDays (goTimeDays t)).2.2
  show 10 ≤ (intDigits 4 (civilFromDays (goTimeDays t)).1 ++ ['-'] ++
    intDigits 2 (civilFromDays (goTimeDays t)).2.1 ++ ['-'] ++
    intDigits 2 (civilFromDays (goTimeDays t)).2.2).length
  simp only [List.length_append, List.length_cons, List.length_nil]
  omega

theorem goFormatISO_ne_unknown (t : GoTime) : goFormatISO t ≠ "unknown" := by
  intro h
  have h10 := goFormatISO_length t
  rw [h] at h10
  exact absurd h10 (by decide)

theorem downloadSingleFile_reportDate_ok (env : JobEnv) (fs : List String) (job : Job)
    (folder : String) (now : GoTime) (d : GoTime)
    (hp : parseDateFromName job.ObjectName = Except.ok d) :
    (downloadSingleFile env fs job folder now).result.ReportDate = goFormatISO d := by
  unfold downloadSingleFile
  simp only [hp]
  (try dsimp only)
  split
  · rfl
  · cases hg : env.getObjectRes <;> (try dsimp only) <;>
      first
        | rfl
        | (cases hc : env.createRes <;> (try dsimp only) <;>
            first
              | rfl
              | (cases hcp : env.copyRes <;> rfl))

theorem runJobs_status_cases (folder : String) (now : GoTime) :
    ∀ (jobs : List (Job × JobEnv)) (fs : List String),
      ∀ step ∈ (runJobs folder now jobs fs).1,
        step.outcome.result.Status = "Already exists" ∨
        step.outcome.result.Status = "Failed" ∨
        step.outcome.result.Status = "Success"
  | [], _, _, h => absurd h (List.not_mem_nil _)
  | (job, env) :: rest, fs, step, h => by
    simp only [runJobs, List.mem_cons] at h
    rcases h with h | h
    · subst h
      exact downloadSingleFile_status_cases env fs job folder now
    · exact runJobs_status_cases folder now rest _ step h

/-- Inversion for the summary loop body: a produced row comes from an
object whose name is present and whose date parses to the row's date. -/
theorem reportOf_some_inv (sizeOf : String → Except String Int) (obj : ObjectSummary)
    (r : Report) (h : reportOf sizeOf obj = some r) :
    ∃ nm, obj.name = some nm ∧ parseDateFromName nm = Except.ok r.Date ∧ r.Name = nm := by
  rcases obj with ⟨name⟩
  cases name with
  | none => cases h
  | some nm =>
    simp only [reportOf] at h
    split at h
    · cases h
    · rename_i d hp
      injection h with h2
      subst h2
      exact ⟨nm, rfl, hp, rfl⟩

/-! ### Claim theorems -/


/-- C1: for every job dequeued by a worker, exactly one `OperationResult`
is produced and sent to the result stream, on every branch of the
per-job state machine: the run's result list records the jobs one-to-one
and in order, and each result carries one of the three branch statuses
(`Already exists`, `Failed`, `Success`); no job is dropped. -/
theorem claim1_every_job_one_result (folder : String) (now : GoTime)
    (jobs : List (Job × JobEnv)) (fs : List String) :
    (runJobs folder now jobs fs).1.map RunStep.job = jobs.map Prod.fst ∧
    (runJobs folder now jobs fs).1.length = jobs.length ∧
    ∀ step ∈ (runJobs folder now jobs fs).1,
      step.outcome.result.Status = "Already exists" ∨
      step.outcome.result.Status = "Failed" ∨
      step.outcome.result.Status = "Success" := by
  refine ⟨runJobs_map_job folder now jobs fs, ?_, runJobs_status_cases folder now jobs fs⟩
  have h := congrArg List.length (runJobs_map_job folder now jobs fs)
  simpa using h

/-- Witness for C1 at a concrete one-job run. -/
theorem claim1_witness :
    (runJobs "dl" 0 [(wJob, wEnvOK)] []).1.map RunStep.job = [wJob] ∧
    (runJobs "dl" 0 [(wJob, wEnvOK)] []).1.length = 1 := by
  have h := claim1_every_job_one_result "dl" 0 [(wJob, wEnvOK)] []
  exact ⟨h.1, h.2.1⟩

/-- C2: on any object name, splitting on `/`: with at least 4 segments
whose 4th-, 3rd- and 2nd-from-last segments parse as integers `y`, `m`,
`d`, the extractor returns exactly `time.Date(y, m, d, 0,0,0,0, UTC)`;
with fewer than 4 segments, or a non-integer in any of those three
positions, it fails with an error, deterministically.  Moreover the
returned value is exactly the calendar date encoded: for every valid
calendar triple, the civil decomposition of the returned instant gives
back precisely `(y, m, d)`. -/
theorem claim2_date_extractor (name : String) :
    (∀ y m d : Int, ¬ (goSplit name '/').length < 4 →
      goAtoi ((goSplit name '/').getD ((goSplit name '/').length - 4) "") = Except.ok y →
      goAtoi ((goSplit name '/').getD ((goSplit name '/').length - 3) "") = Except.ok m →
      goAtoi ((goSplit name '/').getD ((goSplit name '/').length - 2) "") = Except.ok d →
      parseDateFromName name = Except.ok (goDate y m d)) ∧
    ((goSplit name '/').length < 4 →
      parseDateFromName name = Except.error ("invalid object name format: " ++ name)) ∧
    (∀ e : String, ¬ (goSplit name '/').length < 4 →
      goAtoi ((goSplit name '/').getD ((goSplit name '/').length - 4) "") = Except.error e →
      parseDateFromName name = Except.error e) ∧
    (∀ (y : Int) (e : String), ¬ (goSplit name '/').length < 4 →
      goAtoi ((goSplit name '/').getD ((goSplit name '/').length - 4) "") = Except.ok y →
      goAtoi ((goSplit name '/').getD ((goSplit name '/').length - 3) "") = Except.error e →
      parseDateFromName name = Except.error e) ∧
    (∀ (y m : Int) (e : String), ¬ (goSplit name '/').length < 4 →
      goAtoi ((goSplit name '/').getD ((goSplit name '/').length - 4) "") = Except.ok y →
      goAtoi ((goSplit name '/').getD ((goSplit name '/').length - 3) "") = Except.ok m →
      goAtoi ((goSplit name '/').getD ((goSplit name '/').length - 2) "") = Except.error e →
      parseDateFromName name = Except.error e) ∧
    (∀ y m d : Int, 1 ≤ m → m ≤ 12 → 1 ≤ d → d ≤ daysInMonth y m →
      civilFromDays (goTimeDays (goDate y m d)) = (y, m, d)) := by
  refine ⟨fun y m d h4 hy hm hd => parseDateFromName_ok_of name y m d h4 hy hm hd,
    fun h4 => parseDateFromName_short name h4,
    fun e h4 hy => parseDateFromName_badYear name e h4 hy,
    fun y e h4 hy hm => parseDateFromName_badMonth name y e h4 hy hm,
    fun y m e h4 hy hm hd => parseDateFromName_badDay name y m e h4 hy hm hd,
    fun y m d hm1 hm2 hd1 hd2 => ?_⟩
  rw [goTimeDays_goDate]
  exact civilFromDays_goDateAbsDays y m d hm1 hm2 hd1 hd2

/-- Witness for C2 on the spec's sample name and on two malformed
names. -/
theorem claim2_witness :
    parseDateFromName "a/b/2025/09/25/FOCUS_REPORT1.csv" =
      Except.ok (goDate 2025 9 25) ∧
    parseDateFromName "weirdfile.csv" =
      Except.error ("invalid object name format: " ++ "weirdfile.csv") ∧
    parseDateFromName "a/b/20x5/09/25/F.csv" =
      Except.error ("invalid syntax: " ++ "20x5") ∧
    civilFromDays (goTimeDays (goDate 2025 9 25)) = (2025, 9, 25) := by
  refine ⟨?_, ?_, ?_, ?_⟩
  · exact (claim2_date_extractor "a/b/2025/09/25/FOCUS_REPORT1.csv").1 2025 9 25
      (by decide) (by decide) (by decide) (by decide)
  · exact (claim2_date_extractor "weirdfile.csv").2.1 (by decide)
  · exact (claim2_date_extractor "a/b/20x5/09/25/F.csv").2.2.1 "invalid syntax: 20x5"
      (by decide) (by decide)
  · exact (claim2_date_extractor "x").2.2.2.2.2 2025 9 25 (by decide) (by decide)
      (by decide) (by decide)

/-- C3: a job whose computed local path already exists short-circuits
with `Already exists`, `downloaded = false` and no `GetObject` call; and
a second run over the same job list, starting from the filesystem a
non-failing first run left behind, yields `Already exists` for every
job and performs no fetch. -/
theorem claim3_skip_idempotent (folder : String) (now now2 : GoTime)
    (jobs jobs2 : List (Job × JobEnv)) (fs0 : List String)
    (hsame : jobs2.map Prod.fst = jobs.map Prod.fst)
    (hok : ∀ step ∈ (runJobs folder now jobs fs0).1,
      step.outcome.result.Status ≠ "Failed") :
    (∀ (job : Job) (env : JobEnv) (fs : List String) (t : GoTime),
      downloadPath folder job.ObjectName ∈ fs →
      (downloadSingleFile env fs job folder t).result.Status = "Already exists" ∧
      (downloadSingleFile env fs job folder t).result.Downloaded = false ∧
      (downloadSingleFile env fs job folder t).fetchCalled = false) ∧
    ∀ step ∈ (runJobs folder now2 jobs2 (runJobs folder now jobs fs0).2).1,
      step.outcome.result.Status = "Already exists" ∧
      step.outcome.result.Downloaded = false ∧
      step.outcome.fetchCalled = false := by
  constructor
  · intro job env fs t h
    have h2 := downloadSingleFile_skip env fs job folder t h
    exact ⟨h2.1, h2.2.1, h2.2.2.1⟩
  · refine runJobs_all_exist folder now2 jobs2 _ ?_
    intro je hje
    have hm : je.1 ∈ jobs.map Prod.fst := by
      rw [← hsame]
      exact List.mem_map_of_mem _ hje
    rcases List.mem_map.mp hm with ⟨je2, hje2, heq⟩
    have hp := runJobs_notFailed_paths folder now jobs fs0 hok je2 hje2
    rw [heq] at hp
    exact hp

/-- Witness for C3: run the sample job once successfully, then re-run it
under a network environment where every call would fail. -/
theorem claim3_witness :
    ([(wJob, wEnvFail)].map Prod.fst = [(wJob, wEnvOK)].map Prod.fst) ∧
    (∀ step ∈ (runJobs "dl" 0 [(wJob, wEnvOK)] []).1,
      step.outcome.result.Status ≠ "Failed") ∧
    ∀ step ∈ (runJobs "dl" 99 [(wJob, wEnvFail)] (runJobs "dl" 0 [(wJob, wEnvOK)] []).2).1,
      step.outcome.result.Status = "Already exists" ∧
      step.outcome.result.Downloaded = false ∧
      step.outcome.fetchCalled = false := by
  refine ⟨by decide, by decide, ?_⟩
  exact (claim3_skip_idempotent "dl" 0 99 [(wJob, wEnvOK)] [(wJob, wEnvFail)] []
    (by decide) (by decide)).2

/-- C4 counterexample: with today = 2025-09-30 and lookback 7 days the
object dated 2025-09-20 is NOT listed (the cutoff is 2025-09-23), and
with lookback 4 days the object dated 2025-09-25 is NOT listed either
(the cutoff is 2025-09-26 and the filter is strict) — contradicting the
claim that both are included at 7 days and the first at 4 days. -/
theorem claim4_counterexample :
    ¬ (scenarioO2 ∈ listAllFocusReports [[scenarioO1, scenarioO2]] (goDate 2025 9 30) 7 ∧
       scenarioO1 ∈ listAllFocusReports [[scenarioO1, scenarioO2]] (goDate 2025 9 30) 4) := by
  decide

/-- C4 (amended): the lister returns exactly the listed objects whose
name contains the marker substring and whose extracted date is strictly
after `now - days`; an unparsable object is skipped and does not abort
or otherwise change the listing.  In the concrete scenario (today =
2025-09-30) only the 2025-09-25 object is within the 7-day window, and
neither object is within the 4-day window. -/
theorem claim4_lister_filter :
    (∀ (pages : List (List ObjectSummary)) (now : GoTime) (days : Int)
        (obj : ObjectSummary),
      obj ∈ listAllFocusReports pages now days ↔
        obj ∈ pages.flatten ∧ ∃ nm, obj.name = some nm ∧
          (goContains nm "FOCUS" || goContains nm "FOCUS_REPORT") = true ∧
          ∃ d, parseDateFromName nm = Except.ok d ∧ now - days * nsPerDay < d) ∧
    (∀ (p1 p2 : List (List ObjectSummary)) (l1 l2 : List ObjectSummary)
        (now : GoTime) (days : Int) (bad : ObjectSummary),
      (∀ nm, bad.name = some nm → ∃ e, parseDateFromName nm = Except.error e) →
      listAllFocusReports (p1 ++ (l1 ++ bad :: l2) :: p2) now days =
        listAllFocusReports (p1 ++ (l1 ++ l2) :: p2) now days) ∧
    listAllFocusReports [[scenarioO1, scenarioO2]] (goDate 2025 9 30) 7 = [scenarioO1] ∧
    listAllFocusReports [[scenarioO1, scenarioO2]] (goDate 2025 9 30) 4 = [] := by
  refine ⟨?_, ?_, by decide, by decide⟩
  · intro pages now days obj
    rw [mem_listAllFocusReports, keepObject_iff]
  · intro p1 p2 l1 l2 now days bad hbad
    have hkeep : keepObject now days bad = false := by
      rcases bad with ⟨name⟩
      cases name with
      | none => rfl
      | some nm =>
        rcases hbad nm rfl with ⟨e, he⟩
        unfold keepObject
        (try dsimp only)
        rw [he]
        simp
    rw [listAllFocusReports_eq_filter, listAllFocusReports_eq_filter]
    rw [List.flatten_append, List.flatten_append, List.flatten_cons, List.flatten_cons]
    simp only [List.filter_append, List.filter_cons, hkeep]
    simp

/-- Witness for C4: the skip clause applied to a one-segment object name
inserted in the middle of the scenario page. -/
theorem claim4_witness :
    listAllFocusReports [[scenarioO1, ⟨some "weirdfile.csv"⟩, scenarioO2]]
        (goDate 2025 9 30) 7 =
      listAllFocusReports [[scenarioO1, scenarioO2]] (goDate 2025 9 30) 7 := by
  exact (claim4_lister_filter).2.1 [] [] [scenarioO1] [scenarioO2] (goDate 2025 9 30) 7
    ⟨some "weirdfile.csv"⟩
    (fun nm h => by
      cases h
      exact ⟨"invalid object name format: " ++ "weirdfile.csv", by decide⟩)

/-- C5: when the path is free, a fetch-open, file-create or copy failure
yields status `Failed` with the underlying error message captured, the
result still being emitted (the run still yields one result per job);
when all three succeed the result is `Success`, `downloaded = true`, and
its size is the actual bytes copied, whatever the earlier estimate. -/
theorem claim5_failure_and_success (env : JobEnv) (fs : List String) (job : Job)
    (folder : String) (now : GoTime)
    (hfree : downloadPath folder job.ObjectName ∉ fs) :
    (∀ e, env.getObjectRes = Except.error e →
      (downloadSingleFile env fs job folder now).result.Status = "Failed" ∧
      (downloadSingleFile env fs job folder now).result.Error = e) ∧
    (∀ e, (∃ u, env.getObjectRes = Except.ok u) → env.createRes = Except.error e →
      (downloadSingleFile env fs job folder now).result.Status = "Failed" ∧
      (downloadSingleFile env fs job folder now).result.Error = e) ∧
    (∀ e, (∃ u, env.getObjectRes = Except.ok u) → (∃ u, env.createRes = Except.ok u) →
      env.copyRes = Except.error e →
      (downloadSingleFile env fs job folder now).result.Status = "Failed" ∧
      (downloadSingleFile env fs job folder now).result.Error = e) ∧
    (∀ n : Int, (∃ u, env.getObjectRes = Except.ok u) → (∃ u, env.createRes = Except.ok u) →
      env.copyRes = Except.ok n →
      (downloadSingleFile env fs job folder now).result.Status = "Success" ∧
      (downloadSingleFile env fs job folder now).result.Downloaded = true ∧
      (downloadSingleFile env fs job folder now).result.FileSize = n) ∧
    (∀ rest fs2, (runJobs folder now ((job, env) :: rest) fs2).1.length = rest.length + 1) := by
  have hfree2 : ∀ (pre : String),
      (downloadSingleFile env fs job folder now) =
        downloadSingleFile env fs job folder now := fun _ => rfl
  unfold downloadPath localFilename at hfree
  refine ⟨?_, ?_, ?_, ?_, ?_⟩
  · intro e hg
    unfold downloadSingleFile
    cases hp : parseDateFromName job.ObjectName <;>
      rw [hp] at hfree <;> simp only [hp] <;> (try dsimp only) <;>
      rw [if_neg hfree] <;> rw [hg] <;> exact ⟨rfl, rfl⟩
  · rintro e ⟨u, hg⟩ hc
    unfold downloadSingleFile
    cases hp : parseDateFromName job.ObjectName <;>
      rw [hp] at hfree <;> simp only [hp] <;> (try dsimp only) <;>
      rw [if_neg hfree] <;> rw [hg] <;> (try dsimp only) <;>
      rw [hc] <;> exact ⟨rfl, rfl⟩
  · rintro e ⟨u, hg⟩ ⟨v, hc⟩ hcp
    unfold downloadSingleFile
    cases hp : parseDateFromName job.ObjectName <;>
      rw [hp] at hfree <;> simp only [hp] <;> (try dsimp only) <;>
      rw [if_neg hfree] <;> rw [hg] <;> (try dsimp only) <;>
      rw [hc] <;> (try dsimp only) <;> rw [hcp] <;> exact ⟨rfl, rfl⟩
  · rintro n ⟨u, hg⟩ ⟨v, hc⟩ hcp
    unfold downloadSingleFile
    cases hp : parseDateFromName job.ObjectName <;>
      rw [hp] at hfree <;> simp only [hp] <;> (try dsimp only) <;>
      rw [if_neg hfree] <;> rw [hg] <;> (try dsimp only) <;>
      rw [hc] <;> (try dsimp only) <;> rw [hcp] <;> exact ⟨rfl, rfl, rfl⟩
  · intro rest fs2
    have h := congrArg List.length (runJobs_map_job folder now ((job, env) :: rest) fs2)
    simpa using h

/-- Witness for C5: the failing environment on a free path, and the
successful one. -/
theorem claim5_witness :
    ((downloadSingleFile wEnvFail [] wJob "dl" 0).result.Status = "Failed" ∧
     (downloadSingleFile wEnvFail [] wJob "dl" 0).result.Error = "404") ∧
    ((downloadSingleFile wEnvOK [] wJob "dl" 0).result.Status = "Success" ∧
     (downloadSingleFile wEnvOK [] wJob "dl" 0).result.Downloaded = true ∧
     (downloadSingleFile wEnvOK [] wJob "dl" 0).result.FileSize = 12345) := by
  constructor
  · exact (claim5_failure_and_success wEnvFail [] wJob "dl" 0 (by decide)).1 "404" rfl
  · exact (claim5_failure_and_success wEnvOK [] wJob "dl" 0 (by decide)).2.2.2.1 12345
      ⟨(), rfl⟩ ⟨(), rfl⟩ rfl

/-- C6: the summary has exactly one row per listed object with a
resolvable date (a permutation of the rows the loop builds), every row's
date resolves from its object name, every listed object with a
resolvable date appears, and the rows are sorted by report date
descending (each adjacent pair satisfies `date(i) ≥ date(i+1)`). -/
theorem claim6_summary_sorted (objects : List ObjectSummary)
    (sizeOf : String → Except String Int) :
    List.Perm (sortedReports objects sizeOf) (buildReports objects sizeOf) ∧
    (∀ r ∈ sortedReports objects sizeOf, ∃ d, parseDateFromName r.Name = Except.ok d ∧
      r.Date = d) ∧
    (∀ obj ∈ objects, ∀ nm, obj.name = some nm →
      ∀ d, parseDateFromName nm = Except.ok d →
      ∃ r ∈ sortedReports objects sizeOf, r.Name = nm ∧ r.Date = d) ∧
    List.Chain' dateDesc (sortedReports objects sizeOf) := by
  refine ⟨List.perm_insertionSort dateDesc _, ?_, ?_, ?_⟩
  · intro r hr
    have hr2 : r ∈ buildReports objects sizeOf :=
      (List.perm_insertionSort dateDesc _).subset hr
    rcases List.mem_filterMap.mp hr2 with ⟨obj, _, hro⟩
    rcases reportOf_some_inv sizeOf obj r hro with ⟨nm, _, hp, hname⟩
    exact ⟨r.Date, by rw [hname]; exact hp, rfl⟩
  · intro obj hobj nm hnm d hp
    refine ⟨{ Name := nm, Size := match sizeOf nm with
        | Except.error _ => 0
        | Except.ok s => s, Date := d }, ?_, rfl, rfl⟩
    rw [sortedReports, List.mem_insertionSort]
    refine List.mem_filterMap.mpr ⟨obj, hobj, ?_⟩
    unfold reportOf
    rw [hnm]
    simp only [hp]
  · exact (List.sorted_insertionSort dateDesc _).chain'

/-- Witness for C6: the two scenario objects produce two rows, 09-25
before 09-20. -/
theorem claim6_witness :
    List.Chain' dateDesc (sortedReports [scenarioO2, scenarioO1]
      (fun _ => Except.ok 500)) ∧
    sortedReports [scenarioO2, scenarioO1] (fun _ => Except.ok 500) =
      [{ Name := "a/b/2025/09/25/FOCUS_REPORT1.csv", Size := 500,
         Date := goDate 2025 9 25 },
       { Name := "a/b/2025/09/20/FOCUS_REPORT2.csv", Size := 500,
         Date := goDate 2025 9 20 }] := by
  refine ⟨(claim6_summary_sorted [scenarioO2, scenarioO1] (fun _ => Except.ok 500)).2.2.2, ?_⟩
  decide

/-- C7: the computed local filename is a deterministic pure function of
the object name — two calls under different environments, filesystems,
folders and clocks produce the same `FileName`, namely
`<YYYYMMDD>_<base name>` when a date is extractable and
`unknown_date_<base name>` otherwise. -/
theorem claim7_filename_deterministic (job : Job) (env1 env2 : JobEnv)
    (fs1 fs2 : List String) (folder1 folder2 : String) (now1 now2 : GoTime) :
    (downloadSingleFile env1 fs1 job folder1 now1).result.FileName =
      localFilename job.ObjectName ∧
    (downloadSingleFile env2 fs2 job folder2 now2).result.FileName =
      (downloadSingleFile env1 fs1 job folder1 now1).result.FileName ∧
    (∀ d, parseDateFromName job.ObjectName = Except.ok d →
      localFilename job.ObjectName =
        formatDateForFilename d ++ "_" ++ pathBase job.ObjectName) ∧
    (∀ e, parseDateFromName job.ObjectName = Except.error e →
      localFilename job.ObjectName = "unknown_date_" ++ pathBase job.ObjectName) := by
  refine ⟨downloadSingleFile_fileName env1 fs1 job folder1 now1, ?_, ?_, ?_⟩
  · rw [downloadSingleFile_fileName, downloadSingleFile_fileName]
  · intro d hp
    unfold localFilename
    rw [hp]
  · intro e hp
    unfold localFilename
    rw [hp]

/-- Witness for C7 on the sample job and on a dateless name. -/
theorem claim7_witness :
    (downloadSingleFile wEnvOK [] wJob "dl" 0).result.FileName =
      localFilename wJob.ObjectName ∧
    (downloadSingleFile wEnvFail ["x"] wJob "elsewhere" 77).result.FileName =
      (downloadSingleFile wEnvOK [] wJob "dl" 0).result.FileName ∧
    localFilename "a/b/2025/09/25/FOCUS_REPORT1.csv" = "20250925_FOCUS_REPORT1.csv" ∧
    localFilename "weirdfile.csv" = "unknown_date_" ++ "weirdfile.csv" := by
  have h := claim7_filename_deterministic wJob wEnvOK wEnvFail [] ["x"] "dl" "elsewhere" 0 77
  have h2 := claim7_filename_deterministic (Job.mk "weirdfile.csv" "bling" "tenancy")
    wEnvOK wEnvFail [] [] "dl" "dl" 0 0
  refine ⟨h.1, h.2.1, by decide, ?_⟩
  exact h2.2.2.2 ("invalid object name format: " ++ "weirdfile.csv") (by decide)

/-- C8: when the metadata size fetch fails the job still proceeds to a
result (one of the three branch statuses), carrying file size 0 unless
the copy later succeeded and overrode it; and in the summary the object
still gets its row, with size 0 and `size_bytes = "0"`. -/
theorem claim8_size_fallback (env : JobEnv) (fs : List String) (job : Job)
    (folder : String) (now : GoTime) (e : String)
    (hsz : env.sizeResult = Except.error e) :
    ((downloadSingleFile env fs job folder now).result.Status = "Already exists" ∨
     (downloadSingleFile env fs job folder now).result.Status = "Failed" ∨
     (downloadSingleFile env fs job folder now).result.Status = "Success") ∧
    ((downloadSingleFile env fs job folder now).result.Status ≠ "Success" →
      (downloadSingleFile env fs job folder now).result.FileSize = 0) ∧
    (∀ (objects : List ObjectSummary) (sizeOf : String → Except String Int)
        (obj : ObjectSummary) (nm : String) (d : GoTime),
      obj ∈ objects → obj.name = some nm → sizeOf nm = Except.error e →
      parseDateFromName nm = Except.ok d →
      ({ Name := nm, Size := 0, Date := d } : Report) ∈ buildReports objects sizeOf ∧
      ∀ bucket, (summaryRow bucket { Name := nm, Size := 0, Date := d }).size_bytes = "0") := by
  refine ⟨downloadSingleFile_status_cases env fs job folder now, ?_, ?_⟩
  · unfold downloadSingleFile
    simp only [hsz]
    cases hp : parseDateFromName job.ObjectName <;> simp only [hp] <;> (try dsimp only) <;> split
    · intro _; rfl
    · cases hg : env.getObjectRes <;> (try dsimp only)
      · intro _; rfl
      · cases hc : env.createRes <;> (try dsimp only)
        · intro _; rfl
        · cases hcp : env.copyRes <;> (try dsimp only)
          · intro _; rfl
          · intro hns; exact absurd rfl hns
    · intro _; rfl
    · cases hg : env.getObjectRes <;> (try dsimp only)
      · intro _; rfl
      · cases hc : env.createRes <;> (try dsimp only)
        · intro _; rfl
        · cases hcp : env.copyRes <;> (try dsimp only)
          · intro _; rfl
          · intro hns; exact absurd rfl hns
  · intro objects sizeOf obj nm d hobj hnm hsize hp
    constructor
    · refine List.mem_filterMap.mpr ⟨obj, hobj, ?_⟩
      unfold reportOf
      rw [hnm]
      (try dsimp only)
      rw [hsize, hp]
    · intro bucket
      rfl

/-- Witness for C8: a failing HeadObject on the sample job and a
one-object summary with a failing size oracle. -/
theorem claim8_witness :
    (downloadSingleFile wEnvFail [] wJob "dl" 0).result.FileSize = 0 ∧
    ({ Name := "a/b/2025/09/25/FOCUS_REPORT1.csv", Size := 0,
       Date := goDate 2025 9 25 } : Report) ∈
      buildReports [scenarioO1] (fun _ => Except.error "head failed") := by
  have h := claim8_size_fallback wEnvFail [] wJob "dl" 0 "head failed" rfl
  refine ⟨h.2.1 (by decide), ?_⟩
  exact (h.2.2 [scenarioO1] (fun _ => Except.error "head failed") scenarioO1
    "a/b/2025/09/25/FOCUS_REPORT1.csv" (goDate 2025 9 25)
    (by decide) rfl rfl (by decide)).1

/-- C9: every object the lister returns has a parsable date, so every
per-job result built from it carries the ISO-rendered report date (never
`"unknown"`) and a `<YYYYMMDD>_`-prefixed filename — the
`unknown_date_` fallback is unreachable in the end-to-end flow. -/
theorem claim9_no_unknown_date (pages : List (List ObjectSummary)) (now : GoTime)
    (days : Int) (obj : ObjectSummary)
    (h : obj ∈ listAllFocusReports pages now days) :
    ∃ nm d, obj.name = some nm ∧ parseDateFromName nm = Except.ok d ∧
      ∀ (env : JobEnv) (fs : List String) (ns bucket folder : String) (t : GoTime),
        (downloadSingleFile env fs (Job.mk nm ns bucket) folder t).result.ReportDate = goFormatISO d ∧
        (downloadSingleFile env fs (Job.mk nm ns bucket) folder t).result.ReportDate ≠ "unknown" ∧
        (downloadSingleFile env fs (Job.mk nm ns bucket) folder t).result.FileName =
          formatDateForFilename d ++ "_" ++ pathBase nm := by
  rcases (mem_listAllFocusReports pages now days obj).mp h with ⟨_, hk⟩
  rcases (keepObject_iff now days obj).mp hk with ⟨nm, hnm, _, d, hp, _⟩
  refine ⟨nm, d, hnm, hp, ?_⟩
  intro env fs ns bucket folder t
  have h1 := downloadSingleFile_reportDate_ok env fs (Job.mk nm ns bucket) folder t d hp
  refine ⟨h1, by rw [h1]; exact goFormatISO_ne_unknown d, ?_⟩
  rw [downloadSingleFile_fileName]
  unfold localFilename
  (try dsimp only)
  rw [hp]

/-- Witness for C9 on the scenario listing. -/
theorem claim9_witness :
    ∃ nm d, scenarioO1.name = some nm ∧ parseDateFromName nm = Except.ok d ∧
      ∀ (env : JobEnv) (fs : List String) (ns bucket folder : String) (t : GoTime),
        (downloadSingleFile env fs (Job.mk nm ns bucket) folder t).result.ReportDate = goFormatISO d ∧
        (downloadSingleFile env fs (Job.mk nm ns bucket) folder t).result.ReportDate ≠ "unknown" ∧
        (downloadSingleFile env fs (Job.mk nm ns bucket) folder t).result.FileName =
          formatDateForFilename d ++ "_" ++ pathBase nm :=
  claim9_no_unknown_date [[scenarioO1, scenarioO2]] (goDate 2025 9 30) 7 scenarioO1
    (by decide)

/-- C10: with the bucket name `main` uses (the tenancy OCID from the
configuration), every summary row's `bucket_name` and `tenancy_ocid`
columns hold the same value. -/
theorem claim10_bucket_is_tenancy (tenancyID : String) (rs : List Report) :
    ∀ row ∈ summaryRows (mainBucketName tenancyID) rs,
      row.bucket_name = row.tenancy_ocid ∧ row.bucket_name = tenancyID ∧
      row.tenancy_ocid = tenancyID := by
  intro row hrow
  rcases List.mem_map.mp hrow with ⟨r, _, hr⟩
  subst hr
  exact ⟨rfl, rfl, rfl⟩

/-- Witness for C10 on a one-row summary. -/
theorem claim10_witness :
    (summaryRow (mainBucketName "ocid1.tenancy.oc1..aaaa") wReport).bucket_name =
      (summaryRow (mainBucketName "ocid1.tenancy.oc1..aaaa") wReport).tenancy_ocid ∧
    (summaryRow (mainBucketName "ocid1.tenancy.oc1..aaaa") wReport).bucket_name =
      "ocid1.tenancy.oc1..aaaa" ∧
    (summaryRow (mainBucketName "ocid1.tenancy.oc1..aaaa") wReport).tenancy_ocid =
      "ocid1.tenancy.oc1..aaaa" :=
  claim10_bucket_is_tenancy "ocid1.tenancy.oc1..aaaa" [wReport]
    (summaryRow (mainBucketName "ocid1.tenancy.oc1..aaaa") wReport)
    (List.mem_singleton.mpr rfl)

end FocusReport

